import Mathlib

/-!
Verification development for the FLAC library scanner (`flac_scanner.py`).

The program walks a directory tree, reads the (bits-per-sample, sample-rate)
pair of every `.flac` file (case-insensitive extension match), classifies each
folder by the set of distinct resolutions found in it, accumulates folders
under classification keys, and renders a sorted textual report, optionally
duplicated to an output file.

Shallow embedding conventions:
* Machine integers are `Nat` (bit depths and sample rates are small positive
  integers; no overflow is possible in the source, which uses Python integers).
* The external metadata parser (`get_flac_resolution`, built on mutagen) is an
  out-of-scope collaborator; it is modelled as a parameter
  `reader : String → String → Option (ℕ × ℕ)` mapping a directory path and a
  file name to the parsed resolution, `none` meaning unreadable/corrupt.
* `os.walk` is modelled by an explicit list of visited directories, each with
  its path and file-name list, in traversal order.
* Python's `set` of tuples is modelled by a duplicate-free list (`List.dedup`
  of the successfully parsed resolutions); all downstream uses (cardinality
  test, sorting) are order-insensitive, which is proved where a claim needs it.
* The float expression `rate / 1000.0` rendered with `f"{khz:g}"` is modelled
  by exact rational/integer arithmetic: round the value to six significant
  decimal digits (ties to even), strip trailing zeros, and use fixed-point
  notation when the rounded value is below 10^6 (scientific otherwise), which
  is the documented behaviour of the `g` presentation with default precision 6.
  For every value appearing in the claims the binary64 computation and the
  exact computation produce the same digits; the two could differ only for
  rates of more than six significant digits lying at an exact decimal tie.
-/

/-- Number of divisions by 10 needed before `n` falls below 10^6, i.e. the
count of significant digits of `n` beyond six (0 if `n` already has at most
six digits).  Fuel-based structural recursion; `fuel = n + 1` always
suffices. -/
def findE : ℕ → ℕ → ℕ
  | 0, _ => 0
  | fuel + 1, n => if n < 1000000 then 0 else findE fuel (n / 10) + 1

/-- Round `rate` to six significant decimal digits, ties to even, returning
the rounded significand together with the power of ten that was cut off.
This models the rounding step of `f"{khz:g}"` (default precision 6) applied
to the value `rate / 1000`. -/
def roundHalfEven (rate : ℕ) : ℕ × ℕ :=
  let e := findE (rate + 1) rate
  let d := 10 ^ e
  let q := rate / d
  let r := rate % d
  if 2 * r > d ∨ (2 * r = d ∧ q % 2 = 1) then (q + 1, e) else (q, e)

/-- Remove trailing decimal zeros from `sig`, moving them into the scale:
`stripZeros fuel sig sc` returns `(sig', sc')` with `sig' * 10 ^ sc' =
sig * 10 ^ sc` and (given enough fuel and `sig ≠ 0`) `sig'` not divisible
by 10.  Models the trailing-zero stripping of the `g` format. -/
def stripZeros : ℕ → ℕ → ℕ → ℕ × ℕ
  | 0, sig, sc => (sig, sc)
  | fuel + 1, sig, sc =>
    if sig % 10 = 0 ∧ sig ≠ 0 then stripZeros fuel (sig / 10) (sc + 1) else (sig, sc)

/-- A string of `n` zero characters. -/
def zerosStr (n : ℕ) : String := String.mk (List.replicate n '0')

/-- Fixed-point rendering of the value `sig * 10 ^ sc / 1000` where `sig`
carries no trailing zeros: an integer when `sc ≥ 3`, otherwise an integer
part, a point, and a (left-padded) fractional part. -/
def renderFixed (sig sc : ℕ) : String :=
  if 3 ≤ sc then toString sig ++ zerosStr (sc - 3)
  else
    let k := 3 - sc
    let p := 10 ^ k
    let fs := toString (sig % p)
    toString (sig / p) ++ ("." ++ (zerosStr (k - fs.length) ++ fs))

/-- Scientific rendering of the value `sig * 10 ^ sc / 1000` (used by the
`g` format when the rounded value reaches 10^6; this branch is unreachable
for real-world sample rates but is part of the faithful model). -/
def renderSci (sig sc : ℕ) : String :=
  let s := toString sig
  let mantissa := if s.length = 1 then s else s.take 1 ++ ("." ++ s.drop 1)
  let e := s.length - 1 + sc - 3
  mantissa ++ ("e+" ++ (if e < 10 then "0" ++ toString e else toString e))

/-- Model of the Python expression `f"{rate / 1000.0:g}"` from
`format_resolution`: the kHz value rounded to six significant digits with
trailing zeros stripped, in fixed-point notation while the rounded value is
below 10^6.  See the module docstring for the float-modelling caveat. -/
def gFmt (rate : ℕ) : String :=
  if rate = 0 then "0"
  else
    let p := roundHalfEven rate
    let q := stripZeros (p.1 + 1) p.1 p.2
    if q.1 * 10 ^ q.2 < 1000000000 then renderFixed q.1 q.2 else renderSci q.1 q.2

/-- Model of `format_resolution(bits, rate)`:
`f"{bits}-bit / {khz_str} kHz"` with `khz_str = f"{rate/1000.0:g}"`. -/
def format_resolution (bits rate : ℕ) : String :=
  toString bits ++ ("-bit / " ++ (gFmt rate ++ " kHz"))

/-- Modelled from the spec (section 4.2): the minimal decimal representation
of `rate / 1000` that avoids a trailing ".0" while preserving all meaningful
fractional digits — i.e. the exact decimal expansion with trailing zeros
stripped.  This is the refinement target the claims compare `gFmt`
against; it is not part of the source. -/
def specMinimalKhz (rate : ℕ) : String :=
  if rate = 0 then "0"
  else
    let q := stripZeros (rate + 1) rate 0
    renderFixed q.1 q.2

/-- Lexicographic order on resolutions, by bits then rate: the order Python
uses to sort tuples in `sorted(folder_resolutions)`. -/
def lexLe (a b : ℕ × ℕ) : Prop := a.1 < b.1 ∨ (a.1 = b.1 ∧ a.2 ≤ b.2)

instance : DecidableRel lexLe := fun a b =>
  if h1 : a.1 < b.1 then isTrue (Or.inl h1)
  else
    if h2 : a.1 = b.1 ∧ a.2 ≤ b.2 then isTrue (Or.inr h2)
    else isFalse (fun hc => hc.elim h1 h2)

instance : IsTrans (ℕ × ℕ) lexLe :=
  ⟨by intro a b c hab hbc; unfold lexLe at *; omega⟩

instance : IsTotal (ℕ × ℕ) lexLe :=
  ⟨by intro a b; unfold lexLe; omega⟩

instance : IsAntisymm (ℕ × ℕ) lexLe := by
  refine ⟨fun a b hab hba => ?_⟩
  unfold lexLe at hab hba
  have h1 : a.1 = b.1 := by omega
  have h2 : a.2 = b.2 := by omega
  exact Prod.ext h1 h2

/-- Model of the folder-classification step of `scan_music_library`
(lines 62–72): a singleton resolution set is classified by its formatted
string; otherwise the key lists all resolutions, sorted ascending by
(bits, rate), joined by comma-space inside "Mixed Resolutions (...)".
The resolution set is represented as a duplicate-free list. -/
def classify (resSet : List (ℕ × ℕ)) : String :=
  match resSet with
  | [res] => format_resolution res.1 res.2
  | l =>
    "Mixed Resolutions ("
      ++ (String.intercalate (", ")
            (List.map (fun p : ℕ × ℕ => format_resolution p.1 p.2)
              (List.insertionSort lexLe l))
          ++ ")")

/-- A directory visited by `os.walk`: its path (`root`) and the names of the
plain files directly inside it.  The walk itself is an out-of-scope
filesystem primitive; a scan is modelled over the list of visited
directories in traversal order. -/
structure DirEntry where
  path : String
  files : List String
deriving DecidableEq

/-- Model of the file filter `f.lower().endswith('.flac')` (line 43):
lower-case the name and test for the `.flac` suffix. -/
def hasFlacExt (f : String) : Bool :=
  List.isSuffixOf ((".flac").data) (List.map Char.toLower f.data)

/-- Model of the per-folder resolution set (lines 49–56): parse every
qualifying file with the external reader, keep the successes, collapse
duplicates (Python builds a `set`). -/
def folderRes (reader : String → String → Option (ℕ × ℕ)) (d : DirEntry) :
    List (ℕ × ℕ) :=
  ((d.files.filter hasFlacExt).filterMap (reader d.path)).dedup

/-- Model of `library_report[key].append(root)` on a `defaultdict(list)`:
append to the existing key's list, or append a new singleton entry at the
end (dicts preserve insertion order). -/
def addToReport :
    List (String × List String) → String → String → List (String × List String)
  | [], k, p => [(k, [p])]
  | (k', ps) :: rest, k, p =>
    if k' = k then (k', ps ++ [p]) :: rest else (k', ps) :: addToReport rest k p

/-- Model of one iteration of the `os.walk` loop in `scan_music_library`
(lines 41–72): skip the directory if it has no qualifying files or if every
qualifying file failed to parse, otherwise classify and record it. -/
def scanStep (reader : String → String → Option (ℕ × ℕ))
    (rep : List (String × List String)) (d : DirEntry) :
    List (String × List String) :=
  if d.files.filter hasFlacExt = [] then rep
  else
    if folderRes reader d = [] then rep
    else addToReport rep (classify (folderRes reader d)) d.path

/-- Model of `scan_music_library` (lines 31–74): fold the per-directory step
over the visited directories, starting from the empty report.  (The progress
message printed at line 39 is console-only plumbing and not part of the
returned report.) -/
def scan_music_library (dirs : List DirEntry)
    (reader : String → String → Option (ℕ × ℕ)) :
    List (String × List String) :=
  List.foldl (scanStep reader) [] dirs

/-- Lexicographic code-point comparison of character lists: `true` iff the
first list is ≤ the second in dictionary order.  This is exactly how Python
compares strings (`sorted` on the report keys and folder paths). -/
def strLeB : List Char → List Char → Bool
  | [], _ => true
  | _ :: _, [] => false
  | a :: as, b :: bs => if a < b then true else if b < a then false else strLeB as bs

/-- Lexicographic order on strings by code points, the order used by
Python's `sorted` over report keys and folder paths. -/
def strLe (a b : String) : Prop := strLeB a.data b.data = true

instance : DecidableRel strLe := fun a b =>
  inferInstanceAs (Decidable (strLeB a.data b.data = true))

instance : IsTotal String strLe := by
  refine ⟨fun x y => ?_⟩
  obtain ⟨as⟩ := x
  obtain ⟨bs⟩ := y
  show strLeB as bs = true ∨ strLeB bs as = true
  induction as generalizing bs with
  | nil => exact Or.inl rfl
  | cons a as ih =>
    cases bs with
    | nil => exact Or.inr rfl
    | cons b bs =>
      rcases lt_trichotomy a b with h | h | h
      · left; simp [strLeB, h]
      · subst h
        have hirr : ¬a < a := lt_irrefl a
        rcases ih bs with h2 | h2
        · left; simp [strLeB, hirr, h2]
        · right; simp [strLeB, hirr, h2]
      · right; simp [strLeB, h]

instance : IsTrans String strLe := by
  refine ⟨fun x y z h1 h2 => ?_⟩
  obtain ⟨as⟩ := x
  obtain ⟨bs⟩ := y
  obtain ⟨cs⟩ := z
  replace h1 : strLeB as bs = true := h1
  replace h2 : strLeB bs cs = true := h2
  show strLeB as cs = true
  induction as generalizing bs cs with
  | nil => rfl
  | cons a as ih =>
    cases bs with
    | nil => simp [strLeB] at h1
    | cons b bs =>
      cases cs with
      | nil => simp [strLeB] at h2
      | cons c cs =>
        by_cases hab : a < b
        · have hbc : b < c ∨ b = c := by
            by_cases hbc1 : b < c
            · exact Or.inl hbc1
            · by_cases hcb : c < b
              · simp [strLeB, hbc1, hcb] at h2
              · exact Or.inr (le_antisymm (not_lt.mp hcb) (not_lt.mp hbc1))
          have hac : a < c := by
            rcases hbc with h | h
            · exact lt_trans hab h
            · exact h ▸ hab
          simp [strLeB, hac]
        · by_cases hba : b < a
          · simp [strLeB, hab, hba] at h1
          · have hb : a = b := le_antisymm (not_lt.mp hba) (not_lt.mp hab)
            subst hb
            simp only [strLeB, if_neg hab, if_neg hba] at h1
            by_cases hac : a < c
            · simp [strLeB, hac]
            · by_cases hca : c < a
              · simp [strLeB, hac, hca] at h2
              · simp only [strLeB, if_neg hac, if_neg hca] at h2 ⊢
                exact ih bs cs h1 h2

instance : IsAntisymm String strLe := by
  refine ⟨fun x y h1 h2 => ?_⟩
  obtain ⟨as⟩ := x
  obtain ⟨bs⟩ := y
  replace h1 : strLeB as bs = true := h1
  replace h2 : strLeB bs as = true := h2
  have key : as = bs := by
    induction as generalizing bs with
    | nil =>
      cases bs with
      | nil => rfl
      | cons b bs => simp [strLeB] at h2
    | cons a as ih =>
      cases bs with
      | nil => simp [strLeB] at h1
      | cons b bs =>
        by_cases hab : a < b
        · simp [strLeB, hab, lt_asymm hab] at h2
        · by_cases hba : b < a
          · simp [strLeB, hab, hba] at h1
          · have hb : a = b := le_antisymm (not_lt.mp hba) (not_lt.mp hab)
            subst hb
            simp only [strLeB, if_neg hab] at h1 h2
            exact congrArg (a :: ·) (ih bs h1 h2)
  exact congrArg String.mk key

/-- Left-justified padding to a minimum width with spaces: Python's
`f"{s:<w}"`. -/
def padRight (w : ℕ) (s : String) : String :=
  s ++ String.mk (List.replicate (w - s.length) ' ')

/-- The 60-dash separator line. -/
def sepLine : String := String.mk (List.replicate 60 '-')

/-- The summary-table header line `f"{'RESOLUTION':<25} | {'ALBUM COUNT':<10}"`. -/
def headerLine : String :=
  padRight 25 ("RESOLUTION") ++ (" | " ++ padRight 10 ("ALBUM COUNT"))

/-- Model of `sorted(report.keys())` (lines 99 and 106): the keys in
lexicographically ascending string order. -/
def reportKeys (report : List (String × List String)) : List String :=
  List.insertionSort strLe (report.map Prod.fst)

/-- Model of the lookup `report[resolution]` for a key present in the
report. -/
def getAlbums (report : List (String × List String)) (k : String) :
    List String :=
  match report.find? (fun e => e.1 == k) with
  | some e => e.2
  | none => []

/-- One summary-table row: `f"{resolution:<25} | {len(albums)} albums"`. -/
def summaryRow (report : List (String × List String)) (k : String) : String :=
  padRight 25 k ++ (" | " ++ (toString (getAlbums report k).length ++ " albums"))

/-- Model of `sorted(report[resolution])` (line 108): a key's folder paths in
lexicographically ascending order. -/
def sortedAlbums (report : List (String × List String)) (k : String) :
    List String :=
  List.insertionSort strLe (getAlbums report k)

/-- One detailed-listing section (lines 107–109): the `=== key ===` header
followed by the sorted folder paths. -/
def detailSection (report : List (String × List String)) (k : String) :
    List String :=
  ("\n=== " ++ (k ++ " ===")) :: (sortedAlbums report k).map (fun p => ("  - ") ++ p)

/-- Model of the console text produced by `print_report` (lines 89–109), one
list element per `log` call: the "no files" line for an empty report,
otherwise the summary table followed by the detailed listing, both driven by
the lexicographically sorted key list. -/
def print_report (report : List (String × List String)) : List String :=
  if report = [] then [("No FLAC files found.")]
  else
    [sepLine, headerLine, sepLine]
      ++ ((reportKeys report).map (summaryRow report)
          ++ ([sepLine, ("\nDETAILED LISTING:")]
              ++ (reportKeys report).flatMap (detailSection report)))

/-- Outcome of configuring the output sink in `print_report` (lines 76–82):
no filename given, the file opened successfully, or `open` raised `OSError`
with the given message. -/
inductive SinkConfig where
  | noSink : SinkConfig
  | sinkOk : SinkConfig
  | sinkFail : String → SinkConfig
deriving DecidableEq

/-- Model of the full effect of `print_report(report, output_filename)`
(lines 76–113): the pair (console lines, sink lines).  A failed `open`
prints a warning and leaves the sink empty; a successful open duplicates the
body to the sink and, for a non-empty report, echoes the success message to
the console (the empty-report branch returns before reaching it). -/
def printReportWithSink (report : List (String × List String))
    (cfg : SinkConfig) (path : String) : List String × List String :=
  let warn : List String :=
    match cfg with
    | SinkConfig.sinkFail err =>
      [("Warning: Could not open file for writing: ") ++ err]
    | _ => []
  let body := print_report report
  let tail : List String :=
    match cfg with
    | SinkConfig.sinkOk =>
      match report with
      | [] => []
      | _ :: _ => [("\nReport successfully written to: ") ++ path]
    | _ => []
  (warn ++ (body ++ tail),
    match cfg with
    | SinkConfig.sinkOk => body
    | _ => [])

/-- All folder paths recorded in a report, in key order: the concatenation
of every key's folder list. -/
def flattenPaths (rep : List (String × List String)) : List String :=
  rep.flatMap Prod.snd

theorem stripZeros_mul (fuel sig sc : ℕ) :
    (stripZeros fuel sig sc).1 * 10 ^ (stripZeros fuel sig sc).2 = sig * 10 ^ sc := by
  induction fuel generalizing sig sc with
  | zero => rfl
  | succ fuel ih =>
    by_cases h : sig % 10 = 0 ∧ sig ≠ 0
    · have hd : 10 ∣ sig := Nat.dvd_of_mod_eq_zero h.1
      simp only [stripZeros, if_pos h, ih]
      rw [pow_succ]
      rw [show sig / 10 * (10 ^ sc * 10) = sig / 10 * 10 * 10 ^ sc by ring]
      rw [Nat.div_mul_cancel hd]
    · simp only [stripZeros, if_neg h]

theorem roundHalfEven_of_lt (rate : ℕ) (h : rate < 1000000) :
    roundHalfEven rate = (rate, 0) := by
  have he : findE (rate + 1) rate = 0 := by simp [findE, h]
  simp [roundHalfEven, he, Nat.mod_one, Nat.div_one]

theorem gFmt_eq_spec (rate : ℕ) (h0 : 0 < rate) (h6 : rate < 1000000) :
    gFmt rate = specMinimalKhz rate := by
  have hne : rate ≠ 0 := h0.ne'
  have hr := roundHalfEven_of_lt rate h6
  have hqm := stripZeros_mul (rate + 1) rate 0
  have hlt : (stripZeros (rate + 1) rate 0).1 * 10 ^ (stripZeros (rate + 1) rate 0).2
      < 1000000000 := by
    rw [hqm]
    simp only [pow_zero, mul_one]
    omega
  simp only [gFmt, specMinimalKhz, if_neg hne, hr]
  simp [hlt]

theorem classify_of_one_lt (l : List (ℕ × ℕ)) (h : 1 < l.length) :
    classify l = "Mixed Resolutions ("
      ++ (String.intercalate (", ")
            (List.map (fun p : ℕ × ℕ => format_resolution p.1 p.2)
              (List.insertionSort lexLe l)) ++ ")") := by
  cases l with
  | nil => simp at h
  | cons a t =>
    cases t with
    | nil => simp at h
    | cons b t2 => rfl

theorem scanStep_skip (reader : String → String → Option (ℕ × ℕ))
    (rep : List (String × List String)) (d : DirEntry)
    (h : d.files.filter hasFlacExt = [] ∨ folderRes reader d = []) :
    scanStep reader rep d = rep := by
  unfold scanStep
  rcases h with h | h
  · simp [h]
  · by_cases h2 : d.files.filter hasFlacExt = []
    · simp [h2]
    · simp [h2, h]

theorem addToReport_forall_ne_nil (rep : List (String × List String))
    (k p : String) (h : ∀ e ∈ rep, e.2 ≠ ([] : List String)) :
    ∀ e ∈ addToReport rep k p, e.2 ≠ [] := by
  induction rep with
  | nil =>
    intro e he
    simp only [addToReport, List.mem_singleton] at he
    subst he
    simp
  | cons hd tl ih =>
    obtain ⟨k1, ps⟩ := hd
    intro e he
    simp only [addToReport] at he
    by_cases hk : k1 = k
    · rw [if_pos hk] at he
      rcases List.mem_cons.mp he with rfl | htl
      · simp
      · exact h e (List.mem_cons_of_mem _ htl)
    · rw [if_neg hk] at he
      rcases List.mem_cons.mp he with rfl | htl
      · exact h (k1, ps) (List.mem_cons_self _ _)
      · exact ih (fun e2 he2 => h e2 (List.mem_cons_of_mem _ he2)) e htl

theorem foldl_scanStep_ne_nil (reader : String → String → Option (ℕ × ℕ))
    (dirs : List DirEntry) :
    ∀ rep : List (String × List String), (∀ e ∈ rep, e.2 ≠ ([] : List String)) →
      ∀ e ∈ List.foldl (scanStep reader) rep dirs, e.2 ≠ [] := by
  induction dirs with
  | nil =>
    intro rep h
    simpa using h
  | cons d ds ih =>
    intro rep h
    simp only [List.foldl_cons]
    apply ih
    unfold scanStep
    by_cases h1 : d.files.filter hasFlacExt = []
    · simpa [h1] using h
    · by_cases h2 : folderRes reader d = []
      · simpa [h1, h2] using h
      · simp only [if_neg h1, if_neg h2]
        exact addToReport_forall_ne_nil rep _ d.path h

theorem flatten_addToReport (rep : List (String × List String)) (k p : String) :
    List.Perm (flattenPaths (addToReport rep k p)) (p :: flattenPaths rep) := by
  induction rep with
  | nil => simp [flattenPaths, addToReport]
  | cons hd tl ih =>
    obtain ⟨k1, ps⟩ := hd
    simp only [addToReport]
    by_cases hk : k1 = k
    · rw [if_pos hk]
      simp only [flattenPaths, List.flatMap_cons]
      rw [List.append_assoc]
      exact List.perm_middle
    · rw [if_neg hk]
      simp only [flattenPaths, List.flatMap_cons] at ih ⊢
      exact (ih.append_left ps).trans List.perm_middle

theorem scanStep_flatten (reader : String → String → Option (ℕ × ℕ))
    (rep : List (String × List String)) (d : DirEntry) :
    flattenPaths (scanStep reader rep d) = flattenPaths rep
    ∨ List.Perm (flattenPaths (scanStep reader rep d)) (d.path :: flattenPaths rep) := by
  unfold scanStep
  by_cases h1 : d.files.filter hasFlacExt = []
  · left
    rw [if_pos h1]
  · by_cases h2 : folderRes reader d = []
    · left
      rw [if_neg h1, if_pos h2]
    · right
      rw [if_neg h1, if_neg h2]
      exact flatten_addToReport rep _ d.path

theorem scan_flatten_subperm (reader : String → String → Option (ℕ × ℕ))
    (dirs : List DirEntry) :
    ∀ rep : List (String × List String),
      List.Subperm (flattenPaths (List.foldl (scanStep reader) rep dirs))
        (flattenPaths rep ++ dirs.map DirEntry.path) := by
  induction dirs with
  | nil =>
    intro rep
    simpa using List.Subperm.refl (flattenPaths rep)
  | cons d ds ih =>
    intro rep
    simp only [List.foldl_cons, List.map_cons]
    have h2 := ih (scanStep reader rep d)
    rcases scanStep_flatten reader rep d with he | hp
    · rw [he] at h2
      refine h2.trans (List.Sublist.subperm ?_)
      exact List.Sublist.append_left (List.sublist_cons_self _ _) _
    · exact h2.trans
        (List.Perm.subperm ((hp.append_right _).trans List.perm_middle.symm))

/-- Claim C1: for every resolution set with more than one distinct
(bits, rate) pair, the classification key is "Mixed Resolutions (" followed
by the formatted resolution strings joined by comma-space in ascending
(bits, rate) order, followed by ")"; the key does not depend on the
iteration order of the set (any permutation of the duplicate-free list
gives the same key); in particular the set {(16,44100), (24,96000)} yields
"Mixed Resolutions (16-bit / 44.1 kHz, 24-bit / 96 kHz)". -/
theorem C1_mixed_key_canonical (l l2 : List (ℕ × ℕ)) (_hnd : l.Nodup)
    (hlen : 1 < l.length) (hp : List.Perm l l2) :
    classify l = classify l2
    ∧ List.Sorted lexLe (List.insertionSort lexLe l)
    ∧ classify l = "Mixed Resolutions ("
        ++ (String.intercalate (", ")
              (List.map (fun p : ℕ × ℕ => format_resolution p.1 p.2)
                (List.insertionSort lexLe l)) ++ ")")
    ∧ classify [(16, 44100), (24, 96000)]
        = "Mixed Resolutions (16-bit / 44.1 kHz, 24-bit / 96 kHz)" := by
  have hlen2 : 1 < l2.length := hp.length_eq ▸ hlen
  have hsorteq : List.insertionSort lexLe l = List.insertionSort lexLe l2 :=
    List.eq_of_perm_of_sorted
      ((List.perm_insertionSort lexLe l).trans
        (hp.trans (List.perm_insertionSort lexLe l2).symm))
      (List.sorted_insertionSort lexLe l) (List.sorted_insertionSort lexLe l2)
  refine ⟨?_, List.sorted_insertionSort lexLe l, classify_of_one_lt l hlen, by decide⟩
  rw [classify_of_one_lt l hlen, classify_of_one_lt l2 hlen2, hsorteq]

theorem C1_witness :
    classify [(16, 44100), (24, 96000)] = classify [(24, 96000), (16, 44100)] :=
  (C1_mixed_key_canonical [(16, 44100), (24, 96000)] [(24, 96000), (16, 44100)]
    (by decide) (by decide) (List.Perm.swap (24, 96000) (16, 44100) [])).1

/-- Claim C2: a visited directory with no `.flac` files (case-insensitive),
or one whose every qualifying file fails metadata parsing (empty resolution
set), contributes no entry to the report: removing it from the walk leaves
the scan result unchanged, and the scan is a total function (it continues
without error). -/
theorem C2_skips_empty_dirs (reader : String → String → Option (ℕ × ℕ))
    (pre post : List DirEntry) (d : DirEntry)
    (h : d.files.filter hasFlacExt = [] ∨ folderRes reader d = []) :
    scan_music_library (pre ++ d :: post) reader
      = scan_music_library (pre ++ post) reader := by
  unfold scan_music_library
  rw [List.foldl_append, List.foldl_append, List.foldl_cons,
    scanStep_skip reader _ d h]

theorem C2_witness :
    scan_music_library [⟨"/Empty", ["cover.jpg"]⟩, ⟨"/Corrupt", ["bad.flac"]⟩]
      (fun _ _ => none) = [] := by
  have h1 := C2_skips_empty_dirs (fun _ _ => none) []
    [⟨"/Corrupt", ["bad.flac"]⟩] ⟨"/Empty", ["cover.jpg"]⟩ (Or.inl (by decide))
  have h2 := C2_skips_empty_dirs (fun _ _ => none) [] []
    ⟨"/Corrupt", ["bad.flac"]⟩ (Or.inr (by decide))
  simp only [List.nil_append] at h1 h2
  rw [h1, h2]
  rfl

/-- Claim C3: the formatter produces the kHz parts "44.1 kHz", "48 kHz" and
"96 kHz" for sample rates 44100, 48000 and 96000 (no trailing ".0"), and for
every (bits, rate) input the output has the shape
"<bits>-bit / <khz> kHz". -/
theorem C3_format_examples_and_shape (bits : ℕ) :
    format_resolution bits 44100 = toString bits ++ "-bit / 44.1 kHz"
    ∧ format_resolution bits 48000 = toString bits ++ "-bit / 48 kHz"
    ∧ format_resolution bits 96000 = toString bits ++ "-bit / 96 kHz"
    ∧ ∀ rate : ℕ, ∃ khz : String,
        format_resolution bits rate = toString bits ++ ("-bit / " ++ (khz ++ " kHz")) :=
  ⟨rfl, rfl, rfl, fun rate => ⟨gFmt rate, rfl⟩⟩

/-- Claim C4 counterexample: at rate 1234567 Hz the code renders
"1234.57" (the `g` format rounds to six significant digits) while the
minimal decimal representation of 1234567/1000 is "1234.567", so the code
does not preserve all meaningful fractional digits. -/
theorem C4_counterexample :
    format_resolution 24 1234567 = "24-bit / 1234.57 kHz"
    ∧ specMinimalKhz 1234567 = "1234.567"
    ∧ format_resolution 24 1234567
        ≠ toString 24 ++ ("-bit / " ++ (specMinimalKhz 1234567 ++ " kHz")) := by
  refine ⟨by decide, by decide, by decide⟩

/-- Claim C4 (amended): the formatter is total on all (bits, rate) inputs,
and for every positive rate with at most six significant digits
(rate < 10^6) it renders the kHz value in the minimal decimal
representation that avoids a trailing ".0" while preserving all meaningful
fractional digits; rates with more significant digits are rounded to six
significant digits by the `g` format. -/
theorem C4_format_minimal_six_digits (bits rate : ℕ) :
    (0 < rate → rate < 1000000 →
      format_resolution bits rate
        = toString bits ++ ("-bit / " ++ (specMinimalKhz rate ++ " kHz")))
    ∧ ∃ khz : String,
        format_resolution bits rate
          = toString bits ++ ("-bit / " ++ (khz ++ " kHz")) := by
  constructor
  · intro h0 h6
    unfold format_resolution
    rw [gFmt_eq_spec rate h0 h6]
  · exact ⟨gFmt rate, rfl⟩

theorem C4_witness :
    format_resolution 16 44100
      = toString 16 ++ ("-bit / " ++ (specMinimalKhz 44100 ++ " kHz")) :=
  (C4_format_minimal_six_digits 16 44100).1 (by decide) (by decide)

/-- Claim C5: for a non-empty report the renderer lists the classification
keys in lexicographically ascending order in the summary table (the sorted
key list is sorted and a permutation of the report's keys), drives the
detailed listing with the same sorted key list, and within each key's
section lists the folder paths in lexicographically ascending order. -/
theorem C5_render_sorted (report : List (String × List String))
    (h : report ≠ []) :
    List.Sorted strLe (reportKeys report)
    ∧ List.Perm (reportKeys report) (report.map Prod.fst)
    ∧ (reportKeys report).Forall
        (fun k => List.Sorted strLe (sortedAlbums report k)
          ∧ List.Perm (sortedAlbums report k) (getAlbums report k))
    ∧ print_report report
        = [sepLine, headerLine, sepLine]
          ++ ((reportKeys report).map (summaryRow report)
              ++ ([sepLine, ("\nDETAILED LISTING:")]
                  ++ (reportKeys report).flatMap (detailSection report))) := by
  refine ⟨List.sorted_insertionSort _ _, List.perm_insertionSort _ _, ?_, ?_⟩
  · rw [List.forall_iff_forall_mem]
    intro k hk
    exact ⟨List.sorted_insertionSort _ _, List.perm_insertionSort _ _⟩
  · simp [print_report, h]

theorem C5_witness :
    List.Sorted strLe (reportKeys [("B", ["/z", "/a"]), ("A", ["/x"])])
    ∧ List.Perm (reportKeys [("B", ["/z", "/a"]), ("A", ["/x"])])
        ([("B", ["/z", "/a"]), ("A", ["/x"])].map Prod.fst) :=
  ⟨(C5_render_sorted [("B", ["/z", "/a"]), ("A", ["/x"])] (by decide)).1,
    (C5_render_sorted [("B", ["/z", "/a"]), ("A", ["/x"])] (by decide)).2.1⟩

/-- Claim C6: every key present in a scan's report maps to a non-empty list
of folder paths. -/
theorem C6_no_empty_lists (dirs : List DirEntry)
    (reader : String → String → Option (ℕ × ℕ)) (k : String) (ps : List String)
    (h : (k, ps) ∈ scan_music_library dirs reader) : ps ≠ [] :=
  foldl_scanStep_ne_nil reader dirs [] (by simp) (k, ps) h

theorem C6_witness :
    ("16-bit / 44.1 kHz", ["/Album1"]) ∈
        scan_music_library [⟨"/Album1", ["a.flac", "b.flac"]⟩]
          (fun _ _ => some (16, 44100))
    ∧ (["/Album1"] : List String) ≠ [] :=
  ⟨by decide,
    C6_no_empty_lists [⟨"/Album1", ["a.flac", "b.flac"]⟩]
      (fun _ _ => some (16, 44100)) "16-bit / 44.1 kHz" ["/Album1"] (by decide)⟩

/-- Claim C7: classifying a singleton resolution set yields exactly the
formatted string of that resolution. -/
theorem C7_singleton_classify (bits rate : ℕ) :
    classify [(bits, rate)] = format_resolution bits rate := rfl

/-- Claim C8: when the output sink cannot be opened, the renderer emits a
warning line, still produces the complete report on the console, writes
nothing to the sink, and is not aborted: the console output equals the
warning followed by exactly the lines produced with no sink configured. -/
theorem C8_sink_failure_nonfatal (report : List (String × List String))
    (err path : String) :
    (printReportWithSink report (SinkConfig.sinkFail err) path).1
      = (("Warning: Could not open file for writing: ") ++ err)
          :: print_report report
    ∧ (printReportWithSink report (SinkConfig.sinkFail err) path).2 = []
    ∧ (printReportWithSink report (SinkConfig.sinkFail err) path).1
      = (("Warning: Could not open file for writing: ") ++ err)
          :: (printReportWithSink report SinkConfig.noSink path).1 := by
  refine ⟨?_, rfl, ?_⟩ <;> simp [printReportWithSink]

/-- Claim C9: an empty report renders as exactly the single
"No FLAC files found." line, with no summary table and no detailed
listing. -/
theorem C9_empty_report_line : print_report [] = [("No FLAC files found.")] := rfl

/-- Claim C10: when the visited directories have distinct paths, the folder
lists of distinct classification keys are pairwise disjoint and no path
occurs twice anywhere in the report (each directory is recorded under
exactly one key). -/
theorem C10_paths_disjoint (dirs : List DirEntry)
    (reader : String → String → Option (ℕ × ℕ))
    (h : (dirs.map DirEntry.path).Nodup) :
    ((scan_music_library dirs reader).flatMap Prod.snd).Nodup
    ∧ List.Pairwise (fun a b => List.Disjoint a.2 b.2)
        (scan_music_library dirs reader) := by
  have hsp := scan_flatten_subperm reader dirs []
  simp only [flattenPaths, List.flatMap_nil, List.nil_append] at hsp
  obtain ⟨l, hlp, hls⟩ := hsp
  have hnl : l.Nodup := h.sublist hls
  have hn : ((scan_music_library dirs reader).flatMap Prod.snd).Nodup :=
    hlp.nodup hnl
  refine ⟨hn, ?_⟩
  have hd := (List.nodup_flatMap.mp hn).2
  exact hd

theorem C10_witness :
    ((scan_music_library [⟨"/A", ["x.flac"]⟩, ⟨"/B", ["y.flac"]⟩]
        (fun root _ => if root = "/A" then some (16, 44100) else some (24, 96000))).flatMap
      Prod.snd).Nodup :=
  (C10_paths_disjoint _ _ (by decide)).1
